import Mathlib

/-!
Shallow embedding of the Pine_BOT semantic memory core
(`src/memory/store.py` — `PineconeManager`, and `src/memory/manager.py` —
`MemoryManager`).

External collaborators (the OpenAI embedding provider and the Pinecone
vector index) are modelled by an explicit environment `Env`: the embedding
call is a fallible function of the text, the index similarity scoring is a
function of two vectors, and index-side faults can be injected per
operation.  Python exceptions become `Except String`, the Pinecone index
state becomes an explicit association list from namespace to record list,
and Python dict metadata becomes an association list of `MVal` values.
-/

set_option maxRecDepth 10000

deriving instance DecidableEq for Except

namespace PineBot

/-- A metadata value: Python scalars that occur in this codebase. -/
inductive MVal where
  | str (s : String)
  | int (n : Int)
  | rat (q : ℚ)
deriving DecidableEq, Repr

/-- Python `str(v)` / f-string rendering of a metadata value. -/
def MVal.toStr : MVal → String
  | .str s => s
  | .int n => toString n
  | .rat q => toString q

/-- A Python metadata dict, as an association list (first binding wins). -/
abbrev Metadata := List (String × MVal)

/-- Dict lookup `m.get(k)`. -/
def Metadata.find? (m : Metadata) (k : String) : Option MVal :=
  match m with
  | [] => none
  | (k', v) :: rest => if k' == k then some v else Metadata.find? rest k

/-- Dict update `m[k] = v`: replaces an existing binding, else appends. -/
def Metadata.set (m : Metadata) (k : String) (v : MVal) : Metadata :=
  match m with
  | [] => [(k, v)]
  | (k', v') :: rest =>
    if k' == k then (k, v) :: rest else (k', v') :: Metadata.set rest k v

/-- One stored vector-index record: id, embedding vector, metadata. -/
structure MemRecord where
  id : String
  vec : List ℚ
  meta : Metadata
deriving DecidableEq, Repr

/-- The Pinecone index state: association list from namespace to records. -/
abbrev Store := List (String × List MemRecord)

/-- The records currently stored in a namespace (empty if absent). -/
def recordsIn (st : Store) (ns : String) : List MemRecord :=
  match st with
  | [] => []
  | (n, recs) :: rest => if n == ns then recs else recordsIn rest ns

/-- Replace the record list of a namespace (creating it if absent). -/
def setNs (st : Store) (ns : String) (recs : List MemRecord) : Store :=
  match st with
  | [] => [(ns, recs)]
  | (n, rs) :: rest =>
    if n == ns then (ns, recs) :: rest else (n, rs) :: setNs rest ns recs

/--
The external collaborators of the core: the embedding provider (fallible,
a function of the text), the index-side similarity scoring used to rank a
query vector against stored vectors, and injectable faults for the three
index operations the modelled code paths perform.
-/
structure Env where
  embed : String → Except String (List ℚ)
  score : List ℚ → List ℚ → ℚ
  queryFault : Option String
  upsertFault : Option String
  updateFault : Option String

/-- One match returned by an index query: id, similarity score, metadata. -/
structure QMatch where
  id : String
  score : ℚ
  meta : Metadata
deriving DecidableEq, Repr

/-- Pinecone `$eq` metadata filter: every listed pair must match exactly. -/
def matchesFilt (flt : Option Metadata) (m : Metadata) : Bool :=
  match flt with
  | none => true
  | some fs => fs.all (fun kv => m.find? kv.1 == some kv.2)

/-- Insert into a list sorted by `le` (stable: equal keys keep order). -/
def insertBy {α : Type} (le : α → α → Bool) (a : α) : List α → List α
  | [] => [a]
  | b :: t => if le a b then a :: b :: t else b :: insertBy le a t

/-- Insertion sort by the Boolean relation `le`. -/
def sortBy {α : Type} (le : α → α → Bool) : List α → List α
  | [] => []
  | a :: t => insertBy le a (sortBy le t)

/-- `PineconeManager.get_embedding` (store.py:102): one embedding call,
errors wrapped. -/
def get_embedding (env : Env) (text : String) : Except String (List ℚ) :=
  match env.embed text with
  | .ok v => .ok v
  | .error e => .error ("Ошибка при получении эмбеддинга: " ++ e)

/-- The matches the index returns for a query vector in a namespace:
records passing the metadata filter, scored against the query vector,
sorted by descending score, truncated to `top_k`. -/
def indexMatches (env : Env) (st : Store) (vector : List ℚ) (top_k : Nat)
    (ns : String) (flt : Option Metadata) : List QMatch :=
  (sortBy (fun a b => decide (b.score ≤ a.score))
    (((recordsIn st ns).filter (fun r => matchesFilt flt r.meta)).map
      (fun r => QMatch.mk r.id (env.score vector r.vec) r.meta))).take top_k

/-- `PineconeManager.query_by_vector` (store.py:174): index query, errors
wrapped. -/
def query_by_vector (env : Env) (st : Store) (vector : List ℚ)
    (top_k : Nat) (ns : String) (flt : Option Metadata) :
    Except String (List QMatch) :=
  match env.queryFault with
  | some e => .error ("Ошибка при поиске по вектору: " ++ e)
  | none => .ok (indexMatches env st vector top_k ns flt)

/-- `PineconeManager.query_by_text` (store.py:195): embed then query, errors
wrapped again. -/
def query_by_text (env : Env) (st : Store) (text : String) (top_k : Nat)
    (ns : String) (flt : Option Metadata) : Except String (List QMatch) :=
  match get_embedding env text with
  | .error e => .error ("Ошибка при поиске по тексту: " ++ e)
  | .ok v =>
    match query_by_vector env st v top_k ns flt with
    | .error e => .error ("Ошибка при поиске по тексту: " ++ e)
    | .ok ms => .ok ms

/-- Upsert one record into a namespace's record list: replaces the record
with the same id if present, else appends. -/
def upsertInNs (recs : List MemRecord) (r : MemRecord) : List MemRecord :=
  if recs.any (fun x => x.id == r.id) then
    recs.map (fun x => if x.id == r.id then r else x)
  else recs ++ [r]

/-- Upsert one record into the store under a namespace. -/
def upsertRecord (st : Store) (ns : String) (r : MemRecord) : Store :=
  setNs st ns (upsertInNs (recordsIn st ns) r)

/-- `PineconeManager.upsert_text` (store.py:131): embed the text, copy it
into the metadata under `"text"`, and upsert under `doc_id`. -/
def upsert_text (env : Env) (st : Store) (text doc_id : String)
    (metadata : Option Metadata) (ns : String) : Except String Store :=
  match get_embedding env text with
  | .error e => .error ("Ошибка при записи текста: " ++ e)
  | .ok emb =>
    match env.upsertFault with
    | some e => .error ("Ошибка при записи текста: " ++ e)
    | none =>
      .ok (upsertRecord st ns
        ⟨doc_id, emb, (metadata.getD []).set "text" (.str text)⟩)

/-- Pinecone `index.update(set_metadata=...)`: merge the given metadata
fields into the record with the given id (no-op on other records). -/
def setRecordMeta (recs : List MemRecord) (doc_id : String) (m : Metadata) :
    List MemRecord :=
  recs.map (fun r =>
    if r.id == doc_id then
      { r with meta := m.foldl (fun acc kv => acc.set kv.1 kv.2) r.meta }
    else r)

/-- `PineconeManager.update_metadata` (store.py:275). -/
def update_metadata (env : Env) (st : Store) (doc_id : String)
    (metadata : Metadata) (ns : String) : Except String Store :=
  match env.updateFault with
  | some e => .error ("Ошибка при обновлении метаданных: " ++ e)
  | none => .ok (setNs st ns (setRecordMeta (recordsIn st ns) doc_id metadata))

/-- `SIMILARITY_THRESHOLD_HIGH` (store.py:17): the Python literal `0.80`,
written `mkRat 80 100` so that it evaluates inside the kernel. -/
def SIMILARITY_THRESHOLD_HIGH : ℚ := mkRat 80 100

/-- `SIMILARITY_THRESHOLD_LOW` (store.py:18): the Python literal `0.75`. -/
def SIMILARITY_THRESHOLD_LOW : ℚ := mkRat 75 100

/-- The high threshold is `0.80 = 4/5`. -/
theorem high_eq_div : SIMILARITY_THRESHOLD_HIGH = 4/5 := by
  unfold SIMILARITY_THRESHOLD_HIGH
  rw [Rat.mkRat_eq_divInt, Rat.divInt_eq_div]; norm_num

/-- The low threshold is `0.75 = 3/4`. -/
theorem low_eq_div : SIMILARITY_THRESHOLD_LOW = 3/4 := by
  unfold SIMILARITY_THRESHOLD_LOW
  rw [Rat.mkRat_eq_divInt, Rat.divInt_eq_div]; norm_num

/-- `PineconeManager.check_similarity` (store.py:286): classify a candidate
text against its nearest stored neighbour as
`"duplicate"` / `"similar"` / `"new"`. -/
def check_similarity (env : Env) (st : Store) (text : String) (ns : String)
    (top_k : Nat) (flt : Option Metadata) (th_high th_low : Option ℚ) :
    Except String (String × Option QMatch) :=
  let high := th_high.getD SIMILARITY_THRESHOLD_HIGH
  let low := th_low.getD SIMILARITY_THRESHOLD_LOW
  match get_embedding env text with
  | .error e => .error ("Ошибка при проверке сходства: " ++ e)
  | .ok v =>
    match query_by_vector env st v top_k ns flt with
    | .error e => .error ("Ошибка при проверке сходства: " ++ e)
    | .ok ms =>
      match ms with
      | [] => .ok ("new", none)
      | best :: _ =>
        if best.score ≥ high then .ok ("duplicate", some best)
        else if best.score ≥ low then .ok ("similar", some best)
        else .ok ("new", some best)

/-- The result dict of `smart_upsert_text`. -/
structure UpsertResult where
  action : Option String
  doc_id : String
  similarity_status : Option String
  similarity_score : Option ℚ
  matched_id : Option String
deriving DecidableEq, Repr

/-- `PineconeManager.smart_upsert_text` (store.py:318): write a text with an
optional cosine-similarity duplicate check. -/
def smart_upsert_text (env : Env) (st : Store) (text doc_id : String)
    (metadata : Option Metadata) (ns : String)
    (check_duplicates update_if_duplicate : Bool)
    (th_high th_low : Option ℚ) (flt : Option Metadata) :
    Except String (Store × UpsertResult) :=
  let r0 : UpsertResult := ⟨none, doc_id, none, none, none⟩
  if check_duplicates then
    match check_similarity env st text ns 5 flt th_high th_low with
    | .error e => .error ("Ошибка при умной записи текста: " ++ e)
    | .ok (status, mtch) =>
      let r1 : UpsertResult :=
        { r0 with
          similarity_status := some status
          similarity_score := mtch.map (fun m => m.score)
          matched_id := mtch.map (fun m => m.id) }
      if status == "duplicate" then
        if update_if_duplicate then
          match mtch with
          | some m =>
            match update_metadata env st m.id
                ((metadata.getD []).set "text" (.str text)) ns with
            | .error e => .error ("Ошибка при умной записи текста: " ++ e)
            | .ok st' =>
              .ok (st', { r1 with action := some "updated", doc_id := m.id })
          | none => .ok (st, { r1 with action := some "skipped" })
        else .ok (st, { r1 with action := some "skipped" })
      else
        match upsert_text env st text doc_id metadata ns with
        | .error e => .error ("Ошибка при умной записи текста: " ++ e)
        | .ok st' => .ok (st', { r1 with action := some "created" })
  else
    match upsert_text env st text doc_id metadata ns with
    | .error e => .error ("Ошибка при умной записи текста: " ++ e)
    | .ok st' => .ok (st', { r0 with action := some "created" })

/-- One input document of a batch call: its id, its text, and its other
metadata fields. -/
structure Doc where
  id : String
  text : String
  extra : Metadata
deriving DecidableEq, Repr

/-- `{k: v for k, v in doc.items() if k != id_field}`: the metadata a batch
call passes along for one document (the text field included). -/
def docMeta (d : Doc) : Metadata :=
  d.extra.set "text" (.str d.text)

/-- `PineconeManager.upsert_documents` (store.py:147): plain batch write —
batch-embed the texts and upsert every document (no duplicate check). -/
def upsert_documents (env : Env) (st : Store) (docs : List Doc)
    (ns : String) : Except String Store :=
  match docs with
  | [] => .ok st
  | d :: rest =>
    match env.embed d.text with
    | .error e => .error ("Ошибка при записи документов: " ++ e)
    | .ok emb =>
      match env.upsertFault with
      | some e => .error ("Ошибка при записи документов: " ++ e)
      | none => upsert_documents env (upsertRecord st ns ⟨d.id, emb, docMeta d⟩) rest ns

/-- The stats dict of `smart_upsert_documents`. -/
structure BatchStats where
  total : Nat
  created : Nat
  updated : Nat
  skipped : Nat
  results : List UpsertResult
deriving DecidableEq, Repr

/-- `stats[res["action"]] = stats.get(res["action"], 0) + 1`. -/
def bumpStat (s : BatchStats) (action : Option String) : BatchStats :=
  match action with
  | some "created" => { s with created := s.created + 1 }
  | some "updated" => { s with updated := s.updated + 1 }
  | some "skipped" => { s with skipped := s.skipped + 1 }
  | _ => s

/-- The per-item loop of `smart_upsert_documents` (store.py:398-411): each
document goes through `smart_upsert_text`; the first error aborts the loop
(the Python `try` wraps the whole loop and re-raises), leaving the store as
the items already processed left it. -/
def susdGo (env : Env) (st : Store) (docs : List Doc) (ns : String)
    (upd : Bool) (th_high th_low : Option ℚ) (acc : BatchStats) :
    Store × Except String BatchStats :=
  match docs with
  | [] => (st, .ok acc)
  | d :: rest =>
    match smart_upsert_text env st d.text d.id (some (docMeta d)) ns
        true upd th_high th_low none with
    | .error e => (st, .error ("Ошибка при умной записи документов: " ++ e))
    | .ok (st', res) =>
      susdGo env st' rest ns upd th_high th_low
        (bumpStat { acc with results := acc.results ++ [res] } res.action)

/-- `PineconeManager.smart_upsert_documents` (store.py:376): batch write
with optional duplicate checking.  Returns the reached store together with
either the stats dict or the propagated error. -/
def smart_upsert_documents (env : Env) (st : Store) (docs : List Doc)
    (ns : String) (check_duplicates update_if_duplicate : Bool)
    (th_high th_low : Option ℚ) : Store × Except String BatchStats :=
  let stats0 : BatchStats := ⟨docs.length, 0, 0, 0, []⟩
  if check_duplicates then
    susdGo env st docs ns update_if_duplicate th_high th_low stats0
  else
    match upsert_documents env st docs ns with
    | .error e => (st, .error ("Ошибка при умной записи документов: " ++ e))
    | .ok st' => (st', .ok { stats0 with created := docs.length })

/-! ### MemoryManager (`src/memory/manager.py`) -/

/-- `MemoryManager._ALL_TRIGGERS` (manager.py:35): the recall-everything
trigger phrases. -/
def _ALL_TRIGGERS : List String :=
  ["все предпочтени", "все мои предпочтени", "мои предпочтени",
   "напомни мне", "расскажи о мне", "что ты знаешь обо мне",
   "моя память", "мои интересы", "обо мне"]

/-- `MemoryManager._SCORE_THRESHOLD` (manager.py:42): the Python literal
`0.30`. -/
def _SCORE_THRESHOLD : ℚ := mkRat 30 100

/-- The retrieval score floor is `0.30 = 3/10`. -/
theorem floor_eq_div : _SCORE_THRESHOLD = 3/10 := by
  unfold _SCORE_THRESHOLD
  rw [Rat.mkRat_eq_divInt, Rat.divInt_eq_div]; norm_num

/-- The retrieval score floor in normalized form. -/
theorem floor_eq_mk : _SCORE_THRESHOLD = mkRat 3 10 := by decide

/-- `MemoryManager.get_namespace` (manager.py:58). -/
def get_namespace (user_id : Int) : String :=
  "user_" ++ toString user_id

/-- Python `str.lower()` restricted to the alphabets this codebase uses:
ASCII letters and the Russian Cyrillic block (А-Я, Ё). -/
def lowerChar (c : Char) : Char :=
  if 'A' ≤ c ∧ c ≤ 'Z' then Char.ofNat (c.toNat + 32)
  else if 'А' ≤ c ∧ c ≤ 'Я' then Char.ofNat (c.toNat + 32)
  else if c = 'Ё' then 'ё'
  else c

/-- Python `str.lower()` on a whole string (see `lowerChar`). -/
def pyLower (s : String) : String :=
  String.mk (s.toList.map lowerChar)

/-- `needle in hay` on character lists. -/
def containsList (needle : List Char) : List Char → Bool
  | [] => needle.isEmpty
  | c :: t => needle.isPrefixOf (c :: t) || containsList needle t

/-- Python substring containment `needle in hay`. -/
def containsSub (hay needle : String) : Bool :=
  containsList needle.toList hay.toList

/-- Does the lowercased query contain one of the recall-everything
triggers (manager.py:82)? -/
def hasTrigger (query : String) : Bool :=
  _ALL_TRIGGERS.any (fun p => containsSub (pyLower query) p)

/-- The normalized record shape `MemoryManager._to_memory` produces. -/
structure Memory where
  text : String
  score : ℚ
  type : String
  id : String
  filename : String
  page_no : Option MVal
  headings : String
deriving DecidableEq, Repr

/-- `MemoryManager._to_memory` (manager.py:112). -/
def _to_memory (m : QMatch) : Memory :=
  { text := (match m.meta.find? "text" with | some v => v.toStr | none => "")
    score := m.score
    type := (match m.meta.find? "type" with | some v => v.toStr | none => "message")
    id := m.id
    filename := (match m.meta.find? "filename" with | some v => v.toStr | none => "")
    page_no := m.meta.find? "page_no"
    headings := (match m.meta.find? "headings" with | some v => v.toStr | none => "") }

/-- The broad internal query text of `_retrieve_all` (manager.py:101). -/
def broadQueryText : String := "пользователь написал сказал документ"

/-- `MemoryManager._retrieve_all` (manager.py:98): broad query, keep every
match that is not a `doc_index` record, no score filter. -/
def _retrieve_all (env : Env) (st : Store) (ns : String) (top_k : Nat) :
    Except String (List Memory) :=
  match query_by_text env st broadQueryText top_k ns none with
  | .error e => .error e
  | .ok ms =>
    .ok ((ms.filter
      (fun m => !(m.meta.find? "type" == some (.str "doc_index")))).map _to_memory)

/-- `MemoryManager.retrieve` (manager.py:66): trigger phrases take the
recall-everything path with `top_k = 50`; otherwise matches are kept when
their score is strictly above the floor and they are not `doc_index`. -/
def retrieve (env : Env) (st : Store) (user_id : Int) (query : String)
    (top_k : Nat) : Except String (List Memory) :=
  let ns := get_namespace user_id
  if hasTrigger query then
    _retrieve_all env st ns 50
  else
    match query_by_text env st query top_k ns none with
    | .error e => .error e
    | .ok ms =>
      .ok (((ms.filter (fun m =>
          decide (m.score > _SCORE_THRESHOLD) &&
          !(m.meta.find? "type" == some (.str "doc_index")))).map
            _to_memory).take top_k)

/-- The value `MemoryManager.save` returns: the smart-upsert result dict on
success, or the `{"action": "error", "error": msg}` dict when an exception
was caught. -/
inductive SaveRet where
  | res (r : UpsertResult)
  | err (msg : String)
deriving DecidableEq, Repr

/-- The metadata stamping of `MemoryManager.save` (manager.py:148-156). -/
def stampMeta (metadata : Option Metadata) (user_id : Int) (mtype : String)
    (ts : Int) (dt : String) : Metadata :=
  ((((metadata.getD []).set "user_id" (.int user_id)).set
      "type" (.str mtype)).set
      "timestamp" (.int ts)).set
      "datetime" (.str dt)

/-- `MemoryManager.save` (manager.py:129).  The wall clock is passed in
explicitly (`ts` for `int(time.time())`, `dt` for
`datetime.now().isoformat()`).  Any exception from the smart upsert is
caught and turned into the error dict, leaving the store unchanged. -/
def save (env : Env) (st : Store) (user_id : Int) (text : String)
    (mtype : String) (metadata : Option Metadata)
    (check_duplicates : Bool) (doc_id : Option String)
    (ts : Int) (dt : String) : Store × SaveRet :=
  let ns := get_namespace user_id
  let meta := stampMeta metadata user_id mtype ts dt
  let gen := toString user_id ++ "_" ++ mtype ++ "_" ++ toString ts
  let record_id := match doc_id with
    | some d => if d.isEmpty then gen else d
    | none => gen
  match smart_upsert_text env st text record_id (some meta) ns
      check_duplicates true none none none with
  | .ok (st', r) => (st', .res r)
  | .error e => (st, .err e)

/-- Stand-in for Python's `hashlib.md5(...).hexdigest()`: a deterministic
hex digest of the UTF-8 bytes.  The development relies only on it being a
function of its input. -/
def md5_hexdigest (s : String) : String :=
  String.mk (Nat.toDigits 16
    (s.toUTF8.toList.foldl (fun a b => (a * 131 + b.toNat) % 2 ^ 128) 7))

/-- The deterministic passport id of `save_doc_index` (manager.py:183). -/
def docIndexId (user_id : Int) (filename : String) : String :=
  toString user_id ++ "_doc_index_" ++ md5_hexdigest filename

/-- `MemoryManager.save_doc_index` (manager.py:171): save or refresh the
document passport under a deterministic id, with `check_duplicates=False`.
Python discards the result dict; the store is the effect. -/
def save_doc_index (env : Env) (st : Store) (user_id : Int)
    (filename : String) (chunk_count : Int) (ts : Int) (dt : String) :
    Store :=
  (save env st user_id ("Загружен документ: " ++ filename) "doc_index"
    (some [("filename", .str filename), ("chunk_count", .int chunk_count)])
    false (some (docIndexId user_id filename)) ts dt).1

/-- `enumerate(memories, 1)`. -/
def enumFrom {α : Type} (n : Nat) : List α → List (Nat × α)
  | [] => []
  | a :: t => (n, a) :: enumFrom (n + 1) t

/-- The bracketed source-descriptor parts of one document line
(manager.py:250-256): filename if non-empty, then page number if present,
then the heading (truncated to 60 characters) if non-empty. -/
def sourceParts (m : Memory) : List String :=
  (if m.filename == "" then [] else [m.filename]) ++
  (match m.page_no with
   | some p => ["стр. " ++ p.toStr]
   | none => []) ++
  (if m.headings == "" then [] else [m.headings.take 60])

/-- One formatted document line (manager.py:257-258). -/
def docLine (i : Nat) (m : Memory) : String :=
  let parts := sourceParts m
  let source :=
    if parts.isEmpty then ""
    else "  [" ++ String.intercalate ", " parts ++ "]"
  toString i ++ ". " ++ m.text ++ source

/-- One formatted message line (manager.py:260). -/
def msgLine (i : Nat) (m : Memory) : String :=
  toString i ++ ". " ++ m.text

/-- The single pass of `format_for_context` that splits the enumerated
records into document lines and message lines (manager.py:248-260). -/
def splitLines : List (Nat × Memory) → List String × List String
  | [] => ([], [])
  | (i, m) :: rest =>
    let (d, s) := splitLines rest
    if m.type == "doc_chunk" then (docLine i m :: d, s)
    else (d, msgLine i m :: s)

/-- The delimited-section assembly of `format_for_context`
(manager.py:262-272). -/
def assembleSections (doc_lines msg_lines : List String) : String :=
  let parts :=
    (if doc_lines.isEmpty then []
     else ["\n\n=== Из загруженных документов ==="] ++ doc_lines ++
          ["================================="]) ++
    (if msg_lines.isEmpty then []
     else ["\n=== Прошлые сообщения пользователя ==="] ++ msg_lines ++
          ["=======================================\n"])
  String.intercalate "\n" parts

/-- `MemoryManager.format_for_context` (manager.py:234). -/
def format_for_context (memories : List Memory) : String :=
  if memories.isEmpty then ""
  else
    let (doc_lines, msg_lines) := splitLines (enumFrom 1 memories)
    assembleSections doc_lines msg_lines

/-! ### Helper lemmas -/

/-- A successful embedding passes through `get_embedding` unchanged. -/
theorem get_embedding_ok {env : Env} {text : String} {v : List ℚ}
    (h : env.embed text = .ok v) : get_embedding env text = .ok v := by
  simp [get_embedding, h]

/-- A failed embedding surfaces from `get_embedding` with its wrapper. -/
theorem get_embedding_err {env : Env} {text : String} {e : String}
    (h : env.embed text = .error e) :
    get_embedding env text = .error ("Ошибка при получении эмбеддинга: " ++ e) := by
  simp [get_embedding, h]

/-- Without an injected query fault, `query_by_vector` returns the computed
index matches. -/
theorem query_by_vector_ok {env : Env} (st : Store) (v : List ℚ)
    (top_k : Nat) (ns : String) (flt : Option Metadata)
    (h : env.queryFault = none) :
    query_by_vector env st v top_k ns flt = .ok (indexMatches env st v top_k ns flt) := by
  simp [query_by_vector, h]

/-! ### C2: similarity classification thresholds -/

/-- An environment whose index reports the constant score `s` and whose
embedding calls always succeed. -/
def envScore (s : ℚ) : Env :=
  ⟨fun _ => .ok [1], fun _ _ => s, none, none, none⟩

/-- A single stored record in the namespace `user_1`. -/
def rec1 : MemRecord :=
  ⟨"r1", [1], [("text", .str "old"), ("type", .str "message")]⟩

/-- A one-record store, used to exercise the classifier at chosen scores. -/
def st1 : Store := [("user_1", [rec1])]

/-- **C2.** With default thresholds (`high = 0.80 = 4/5`,
`low = 0.75 = 3/4`): an empty neighbour list classifies as `new` with no
match; otherwise the top neighbour's score decides —
`score ≥ 0.80` gives `duplicate`, `0.75 ≤ score < 0.80` gives `similar`,
`score < 0.75` gives `new` — and both thresholds can be overridden per
call, in which case the same comparison runs against the overridden
values. -/
theorem C2_check_similarity_thresholds :
    (SIMILARITY_THRESHOLD_HIGH = 4/5 ∧ SIMILARITY_THRESHOLD_LOW = 3/4) ∧
    (∀ (env : Env) (st : Store) (text ns : String) (k : Nat)
        (flt : Option Metadata) (v : List ℚ),
      env.embed text = .ok v →
      env.queryFault = none →
      ((indexMatches env st v k ns flt = [] →
          check_similarity env st text ns k flt none none = .ok ("new", none)) ∧
       (∀ best rest, indexMatches env st v k ns flt = best :: rest →
          check_similarity env st text ns k flt none none =
            .ok (if best.score ≥ 4/5 then ("duplicate", some best)
                 else if best.score ≥ 3/4 then ("similar", some best)
                 else ("new", some best))) ∧
       (∀ (h l : ℚ) best rest, indexMatches env st v k ns flt = best :: rest →
          check_similarity env st text ns k flt (some h) (some l) =
            .ok (if best.score ≥ h then ("duplicate", some best)
                 else if best.score ≥ l then ("similar", some best)
                 else ("new", some best))))) := by
  refine ⟨⟨high_eq_div, low_eq_div⟩, ?_⟩
  intro env st text ns k flt v hemb hq
  have hge : get_embedding env text = .ok v := get_embedding_ok hemb
  have hqv := @query_by_vector_ok env st v k ns flt hq
  refine ⟨?_, ?_, ?_⟩
  · intro hm
    simp [check_similarity, hge, hqv, hm]
  · intro best rest hm
    have h45 := high_eq_div
    have h34 := low_eq_div
    simp only [check_similarity, hge, hqv, hm, h45, h34, Option.getD]
    split_ifs <;> rfl
  · intro h l best rest hm
    simp only [check_similarity, hge, hqv, hm, Option.getD]
    split_ifs <;> rfl

/-- Witness for C2 at the spec's boundary scores: with the default
thresholds, score `0.80` classifies as `duplicate`, `0.7999` and `0.75`
as `similar`, `0.7499` as `new`; with no stored neighbour the result is
`new` with no match; and an overridden `high = 0.9` turns score `0.85`
from `duplicate` into `similar`. -/
theorem C2_witness :
    check_similarity (envScore (80/100)) st1 "x" "user_1" 5 none none none
      = .ok ("duplicate", some ⟨"r1", 80/100, rec1.meta⟩) ∧
    check_similarity (envScore (7999/10000)) st1 "x" "user_1" 5 none none none
      = .ok ("similar", some ⟨"r1", 7999/10000, rec1.meta⟩) ∧
    check_similarity (envScore (75/100)) st1 "x" "user_1" 5 none none none
      = .ok ("similar", some ⟨"r1", 75/100, rec1.meta⟩) ∧
    check_similarity (envScore (7499/10000)) st1 "x" "user_1" 5 none none none
      = .ok ("new", some ⟨"r1", 7499/10000, rec1.meta⟩) ∧
    check_similarity (envScore 1) [] "x" "user_1" 5 none none none
      = .ok ("new", none) ∧
    check_similarity (envScore (85/100)) st1 "x" "user_1" 5 none
        (some (9/10)) (some (3/4))
      = .ok ("similar", some ⟨"r1", 85/100, rec1.meta⟩) := by
  have hm : ∀ s : ℚ, indexMatches (envScore s) st1 [1] 5 "user_1" none
      = [⟨"r1", s, rec1.meta⟩] := by
    intro s; rfl
  have h := C2_check_similarity_thresholds
  refine ⟨?_, ?_, ?_, ?_, ?_, ?_⟩
  · have := (h.2 (envScore (80/100)) st1 "x" "user_1" 5 none [1] rfl rfl).2.1
      ⟨"r1", 80/100, rec1.meta⟩ [] (hm _)
    rw [this]; norm_num
  · have := (h.2 (envScore (7999/10000)) st1 "x" "user_1" 5 none [1] rfl rfl).2.1
      ⟨"r1", 7999/10000, rec1.meta⟩ [] (hm _)
    rw [this]; norm_num
  · have := (h.2 (envScore (75/100)) st1 "x" "user_1" 5 none [1] rfl rfl).2.1
      ⟨"r1", 75/100, rec1.meta⟩ [] (hm _)
    rw [this]; norm_num
  · have := (h.2 (envScore (7499/10000)) st1 "x" "user_1" 5 none [1] rfl rfl).2.1
      ⟨"r1", 7499/10000, rec1.meta⟩ [] (hm _)
    rw [this]; norm_num
  · have := (h.2 (envScore 1) [] "x" "user_1" 5 none [1] rfl rfl).1 rfl
    exact this
  · have := (h.2 (envScore (85/100)) st1 "x" "user_1" 5 none [1] rfl rfl).2.2
      (9/10) (3/4) ⟨"r1", 85/100, rec1.meta⟩ [] (hm _)
    rw [this]; norm_num

/-- Reduction of `check_similarity` when the index returns at least one
match: the top match's score is compared against the effective
thresholds. -/
theorem check_similarity_cons {env : Env} {st : Store} {text ns : String}
    {k : Nat} {flt : Option Metadata} {v : List ℚ} {best : QMatch}
    {rest : List QMatch}
    (hemb : env.embed text = .ok v) (hq : env.queryFault = none)
    (hm : indexMatches env st v k ns flt = best :: rest)
    (thh thl : Option ℚ) :
    check_similarity env st text ns k flt thh thl =
      (if best.score ≥ thh.getD SIMILARITY_THRESHOLD_HIGH then
        .ok ("duplicate", some best)
      else if best.score ≥ thl.getD SIMILARITY_THRESHOLD_LOW then
        .ok ("similar", some best)
      else .ok ("new", some best)) := by
  simp only [check_similarity, get_embedding_ok hemb,
    query_by_vector_ok st v k ns flt hq, hm]

/-! ### C1: smart-upsert merge / skip / create semantics -/

/-- With a successful embedding and no injected upsert fault,
`upsert_text` writes the record (text copied into the metadata). -/
theorem upsert_text_ok {env : Env} {text : String} {v : List ℚ}
    (st : Store) (doc_id : String) (metadata : Option Metadata) (ns : String)
    (hemb : env.embed text = .ok v) (hf : env.upsertFault = none) :
    upsert_text env st text doc_id metadata ns =
      .ok (upsertRecord st ns
        ⟨doc_id, v, (metadata.getD []).set "text" (.str text)⟩) := by
  simp [upsert_text, get_embedding_ok hemb, hf]

/-- Without an injected update fault, `update_metadata` merges the fields
into the record with the given id. -/
theorem update_metadata_ok {env : Env} (st : Store) (doc_id : String)
    (metadata : Metadata) (ns : String) (hf : env.updateFault = none) :
    update_metadata env st doc_id metadata ns =
      .ok (setNs st ns (setRecordMeta (recordsIn st ns) doc_id metadata)) := by
  simp [update_metadata, hf]

/-- **C1.** The smart-upsert state machine, conditioned on the
classification result: a `duplicate` with merging on updates the matched
record's metadata in place (text included) and returns action `updated`
with the *matched* id; a `duplicate` without merging writes nothing and
returns action `skipped`; `similar` and `new` write a fresh record under
the caller's id with action `created`; and with the duplicate check turned
off the record is written unconditionally with action `created`. -/
theorem C1_smart_upsert_semantics
    (env : Env) (st : Store) (text doc_id : String)
    (metadata : Option Metadata) (ns : String) (upd : Bool)
    (th_high th_low : Option ℚ) (flt : Option Metadata) :
    (∀ m : QMatch,
      check_similarity env st text ns 5 flt th_high th_low
          = .ok ("duplicate", some m) →
      env.updateFault = none →
      smart_upsert_text env st text doc_id metadata ns true true
          th_high th_low flt =
        .ok (setNs st ns (setRecordMeta (recordsIn st ns) m.id
               ((metadata.getD []).set "text" (.str text))),
             ⟨some "updated", m.id, some "duplicate", some m.score, some m.id⟩)) ∧
    (∀ m : QMatch,
      check_similarity env st text ns 5 flt th_high th_low
          = .ok ("duplicate", some m) →
      smart_upsert_text env st text doc_id metadata ns true false
          th_high th_low flt =
        .ok (st, ⟨some "skipped", doc_id, some "duplicate",
                  some m.score, some m.id⟩)) ∧
    (∀ (status : String) (mtch : Option QMatch) (v : List ℚ),
      check_similarity env st text ns 5 flt th_high th_low
          = .ok (status, mtch) →
      (status = "similar" ∨ status = "new") →
      env.embed text = .ok v →
      env.upsertFault = none →
      smart_upsert_text env st text doc_id metadata ns true upd
          th_high th_low flt =
        .ok (upsertRecord st ns
               ⟨doc_id, v, (metadata.getD []).set "text" (.str text)⟩,
             ⟨some "created", doc_id, some status,
              mtch.map (fun m => m.score), mtch.map (fun m => m.id)⟩)) ∧
    (∀ v : List ℚ,
      env.embed text = .ok v →
      env.upsertFault = none →
      smart_upsert_text env st text doc_id metadata ns false upd
          th_high th_low flt =
        .ok (upsertRecord st ns
               ⟨doc_id, v, (metadata.getD []).set "text" (.str text)⟩,
             ⟨some "created", doc_id, none, none, none⟩)) := by
  refine ⟨?_, ?_, ?_, ?_⟩
  · intro m hcls hupd
    simp [smart_upsert_text, hcls,
      @update_metadata_ok env st m.id
        ((metadata.getD []).set "text" (.str text)) ns hupd]
  · intro m hcls
    simp [smart_upsert_text, hcls]
  · intro status mtch v hcls hstat hemb hf
    have hne : (status == "duplicate") = false := by
      rcases hstat with h | h <;> simp [h]
    simp [smart_upsert_text, hcls, hne,
      upsert_text_ok st doc_id metadata ns hemb hf]
  · intro v hemb hf
    simp [smart_upsert_text, upsert_text_ok st doc_id metadata ns hemb hf]

/-- Witness for C1 on the one-record store `st1`: at score `0.9` a merge
updates `r1` in place (the caller asked for id `"cand"`, the returned id
is `"r1"`), without merging the write is skipped, at score `0.77` a new
record `"cand"` is created alongside `r1`, and with the duplicate check
off the record is written with no classification at all. -/
theorem C1_witness :
    smart_upsert_text (envScore (9/10)) st1 "fresh" "cand"
        (some [("k", .str "v")]) "user_1" true true none none none =
      .ok ([("user_1", [⟨"r1", [1],
              [("text", .str "fresh"), ("type", .str "message"),
               ("k", .str "v")]⟩])],
           ⟨some "updated", "r1", some "duplicate", some (9/10), some "r1"⟩) ∧
    smart_upsert_text (envScore (9/10)) st1 "fresh" "cand"
        (some [("k", .str "v")]) "user_1" true false none none none =
      .ok (st1, ⟨some "skipped", "cand", some "duplicate",
                 some (9/10), some "r1"⟩) ∧
    smart_upsert_text (envScore (77/100)) st1 "fresh" "cand"
        (some [("k", .str "v")]) "user_1" true true none none none =
      .ok ([("user_1", [rec1,
              ⟨"cand", [1], [("k", .str "v"), ("text", .str "fresh")]⟩])],
           ⟨some "created", "cand", some "similar",
            some (77/100), some "r1"⟩) ∧
    smart_upsert_text (envScore (9/10)) st1 "fresh" "cand"
        (some [("k", .str "v")]) "user_1" false true none none none =
      .ok ([("user_1", [rec1,
              ⟨"cand", [1], [("k", .str "v"), ("text", .str "fresh")]⟩])],
           ⟨some "created", "cand", none, none, none⟩) := by
  have h1 := C1_smart_upsert_semantics (envScore (9/10)) st1 "fresh" "cand"
    (some [("k", .str "v")]) "user_1" true none none none
  have h2 := C1_smart_upsert_semantics (envScore (77/100)) st1 "fresh" "cand"
    (some [("k", .str "v")]) "user_1" true none none none
  have hm9 : indexMatches (envScore (9/10)) st1 [1] 5 "user_1" none
      = ⟨"r1", 9/10, rec1.meta⟩ :: [] := rfl
  have hm77 : indexMatches (envScore (77/100)) st1 [1] 5 "user_1" none
      = ⟨"r1", 77/100, rec1.meta⟩ :: [] := rfl
  have hcls9 : check_similarity (envScore (9/10)) st1 "fresh" "user_1" 5
      none none none = .ok ("duplicate", some ⟨"r1", 9/10, rec1.meta⟩) := by
    rw [check_similarity_cons rfl rfl hm9 none none]
    norm_num [high_eq_div]
  have hcls77 : check_similarity (envScore (77/100)) st1 "fresh" "user_1" 5
      none none none = .ok ("similar", some ⟨"r1", 77/100, rec1.meta⟩) := by
    rw [check_similarity_cons rfl rfl hm77 none none]
    norm_num [high_eq_div, low_eq_div]
  refine ⟨?_, ?_, ?_, ?_⟩
  · have := h1.1 ⟨"r1", 9/10, rec1.meta⟩ hcls9 rfl
    rw [this]; rfl
  · have := h1.2.1 ⟨"r1", 9/10, rec1.meta⟩ hcls9
    rw [this]
  · have := h2.2.2.1 "similar" (some ⟨"r1", 77/100, rec1.meta⟩) [1]
      hcls77 (Or.inl rfl) rfl rfl
    rw [this]; rfl
  · have := h1.2.2.2 [1] rfl rfl
    rw [this]; rfl

/-! ### C3 and C4: retrieval score gate and recall-everything override -/

/-- An environment for the retrieval tests: every embedding succeeds, and
the index scores a stored record by recognizing its stored vector
(`[1] ↦ 0.9`, `[2] ↦ 0.5`, `[3] ↦ 0.31`, `[4] ↦ 0.29`, `[5] ↦ 0.30`,
anything else `0.01`). -/
def env4 : Env :=
  ⟨fun _ => .ok [0],
   fun _ v =>
     if v = [1] then mkRat 9 10
     else if v = [2] then mkRat 1 2
     else if v = [3] then mkRat 31 100
     else if v = [4] then mkRat 29 100
     else if v = [5] then mkRat 30 100
     else mkRat 1 100,
   none, none, none⟩

/-- Four message records whose scores under `env4` are 0.9 / 0.5 / 0.31 /
0.29, in the namespace of user 1. -/
def st4 : Store :=
  [("user_1",
    [⟨"m9", [1], [("text", .str "a"), ("type", .str "message")]⟩,
     ⟨"m5", [2], [("text", .str "b"), ("type", .str "message")]⟩,
     ⟨"m31", [3], [("text", .str "c"), ("type", .str "message")]⟩,
     ⟨"m29", [4], [("text", .str "d"), ("type", .str "message")]⟩])]

/-- One record whose score under `env4` is exactly the floor 0.30. -/
def st30 : Store :=
  [("user_1", [⟨"m30", [5], [("text", .str "e"), ("type", .str "message")]⟩])]

/-- **C3.** Normal-path retrieval (no trigger phrase in the query) returns
exactly the index matches whose score is strictly greater than the floor
`0.30 = 3/10` and whose metadata type is not `doc_index`, in the index's
order, truncated to at most `top_k`; the floor constant is `3/10`, a score
of exactly `0.30` is excluded, and on the known scores
{0.9, 0.5, 0.31, 0.29} exactly the first three records come back. -/
theorem C3_retrieve_score_gate :
    (∀ (env : Env) (st : Store) (u : Int) (query : String) (top_k : Nat)
        (ms : List QMatch),
      hasTrigger query = false →
      query_by_text env st query top_k (get_namespace u) none = .ok ms →
      retrieve env st u query top_k =
        .ok (((ms.filter (fun m =>
            decide (m.score > mkRat 3 10) &&
            !(m.meta.find? "type" == some (.str "doc_index")))).map
              _to_memory).take top_k)) ∧
    _SCORE_THRESHOLD = 3/10 ∧
    retrieve env4 st4 1 "привет" 10 =
      .ok [⟨"a", mkRat 9 10, "message", "m9", "", none, ""⟩,
           ⟨"b", mkRat 1 2, "message", "m5", "", none, ""⟩,
           ⟨"c", mkRat 31 100, "message", "m31", "", none, ""⟩] ∧
    retrieve env4 st30 1 "привет" 10 = .ok [] := by
  refine ⟨?_, floor_eq_div, by decide, by decide⟩
  intro env st u query top_k ms htrig hq
  simp only [retrieve, htrig, Bool.false_eq_true, if_false, hq, floor_eq_mk]

/-- Witness for C3: the general score-gate theorem applied to the concrete
environment `env4` and store `st4` (non-trigger query, all hypotheses
discharged by evaluation) yields exactly the three records scoring above
the floor. -/
theorem C3_witness :
    retrieve env4 st4 1 "привет" 10 =
      .ok [⟨"a", mkRat 9 10, "message", "m9", "", none, ""⟩,
           ⟨"b", mkRat 1 2, "message", "m5", "", none, ""⟩,
           ⟨"c", mkRat 31 100, "message", "m31", "", none, ""⟩] := by
  have h := C3_retrieve_score_gate.1 env4 st4 1 "привет" 10
    [⟨"m9", mkRat 9 10, [("text", .str "a"), ("type", .str "message")]⟩,
     ⟨"m5", mkRat 1 2, [("text", .str "b"), ("type", .str "message")]⟩,
     ⟨"m31", mkRat 31 100, [("text", .str "c"), ("type", .str "message")]⟩,
     ⟨"m29", mkRat 29 100, [("text", .str "d"), ("type", .str "message")]⟩]
    (by decide) (by decide)
  rw [h]; decide

/-- **C4.** A query containing a trigger phrase takes the override path:
`retrieve` delegates to `_retrieve_all` with `top_k = 50`, which issues the
broad internal query and returns every match that is not a `doc_index`
record, with no score filter; concretely, under an index scoring everything
at `0.01`, the trigger query `"что ты знаешь обо мне"` returns the stored
message record (and drops only the `doc_index` record), while the same
store gives no results for a non-trigger query. -/
theorem C4_retrieve_trigger_override :
    (∀ (env : Env) (st : Store) (u : Int) (query : String) (top_k : Nat),
      hasTrigger query = true →
      retrieve env st u query top_k = _retrieve_all env st (get_namespace u) 50) ∧
    (∀ (env : Env) (st : Store) (ns : String) (ms : List QMatch),
      query_by_text env st broadQueryText 50 ns none = .ok ms →
      _retrieve_all env st ns 50 =
        .ok ((ms.filter (fun m =>
          !(m.meta.find? "type" == some (.str "doc_index")))).map _to_memory)) ∧
    retrieve env4
        [("user_1",
          [⟨"mLow", [9], [("text", .str "малый скор"), ("type", .str "message")]⟩,
           ⟨"dIdx", [8], [("text", .str "паспорт"), ("type", .str "doc_index")]⟩])]
        1 "что ты знаешь обо мне" 10 =
      .ok [⟨"малый скор", mkRat 1 100, "message", "mLow", "", none, ""⟩] ∧
    retrieve env4
        [("user_1",
          [⟨"mLow", [9], [("text", .str "малый скор"), ("type", .str "message")]⟩,
           ⟨"dIdx", [8], [("text", .str "паспорт"), ("type", .str "doc_index")]⟩])]
        1 "привет" 10 = .ok [] := by
  refine ⟨?_, ?_, by decide, by decide⟩
  · intro env st u query top_k htrig
    simp only [retrieve, htrig, if_true]
  · intro env st ns ms hq
    simp only [_retrieve_all, hq]

/-- Witness for C4: the override theorem applied at the trigger query
`"что ты знаешь обо мне"` over a store whose records all score `0.01`
returns the non-`doc_index` record despite its score being far below the
normal floor. -/
theorem C4_witness :
    _retrieve_all env4
      [("user_1",
        [⟨"mLow", [9], [("text", .str "малый скор"), ("type", .str "message")]⟩,
         ⟨"dIdx", [8], [("text", .str "паспорт"), ("type", .str "doc_index")]⟩])]
      "user_1" 50 =
      .ok [⟨"малый скор", mkRat 1 100, "message", "mLow", "", none, ""⟩] ∧
    retrieve env4
      [("user_1",
        [⟨"mLow", [9], [("text", .str "малый скор"), ("type", .str "message")]⟩,
         ⟨"dIdx", [8], [("text", .str "паспорт"), ("type", .str "doc_index")]⟩])]
      1 "что ты знаешь обо мне" 10 =
      .ok [⟨"малый скор", mkRat 1 100, "message", "mLow", "", none, ""⟩] := by
  have hall := C4_retrieve_trigger_override.2.1 env4
    [("user_1",
      [⟨"mLow", [9], [("text", .str "малый скор"), ("type", .str "message")]⟩,
       ⟨"dIdx", [8], [("text", .str "паспорт"), ("type", .str "doc_index")]⟩])]
    "user_1"
    [⟨"mLow", mkRat 1 100, [("text", .str "малый скор"), ("type", .str "message")]⟩,
     ⟨"dIdx", mkRat 1 100, [("text", .str "паспорт"), ("type", .str "doc_index")]⟩]
    (by decide)
  have htr := C4_retrieve_trigger_override.1 env4
    [("user_1",
      [⟨"mLow", [9], [("text", .str "малый скор"), ("type", .str "message")]⟩,
       ⟨"dIdx", [8], [("text", .str "паспорт"), ("type", .str "doc_index")]⟩])]
    1 "что ты знаешь обо мне" 10 (by decide)
  refine ⟨?_, ?_⟩
  · rw [hall]; decide
  · rw [htr]; decide

/-! ### C8: context formatting -/

/-- The claim-side description of the formatter: split the enumerated
records into exactly two groups — `doc_chunk` records and all other
records — render each group's lines, and assemble the delimited sections
(each omitted when its group is empty; empty input gives `""`). -/
def format_spec (memories : List Memory) : String :=
  if memories.isEmpty then ""
  else
    let en := enumFrom 1 memories
    let docGroup := (en.filter (fun p => p.2.type == "doc_chunk")).map
      (fun p => docLine p.1 p.2)
    let msgGroup := (en.filter (fun p => !(p.2.type == "doc_chunk"))).map
      (fun p => msgLine p.1 p.2)
    assembleSections docGroup msgGroup

/-- The single formatting pass equals the two-filter description. -/
theorem splitLines_eq (l : List (Nat × Memory)) :
    splitLines l =
      ((l.filter (fun p => p.2.type == "doc_chunk")).map
        (fun p => docLine p.1 p.2),
       (l.filter (fun p => !(p.2.type == "doc_chunk"))).map
        (fun p => msgLine p.1 p.2)) := by
  induction l with
  | nil => rfl
  | cons p t ih =>
    obtain ⟨i, m⟩ := p
    by_cases hm : (m.type == "doc_chunk") = true
    · simp [splitLines, ih, hm]
    · simp [splitLines, ih, hm]

/-- **C8.** `format_for_context` returns `""` on the empty list and is
otherwise exactly the two-group delimited rendering `format_spec`
(`doc_chunk` records versus everything else, a group omitted when empty);
each document line carries the bracketed source descriptor built from the
present parts of {filename, page number, heading}, comma-joined, with the
bracket omitted when no part is present. -/
theorem C8_format_grouping :
    format_for_context [] = "" ∧
    (∀ memories, format_for_context memories = format_spec memories) ∧
    (∀ (i : Nat) (m : Memory), sourceParts m = [] →
      docLine i m = toString i ++ ". " ++ m.text) ∧
    (∀ (i : Nat) (m : Memory) (parts : List String),
      sourceParts m = parts → parts ≠ [] →
      docLine i m = toString i ++ ". " ++ m.text ++
        ("  [" ++ String.intercalate ", " parts ++ "]")) ∧
    format_for_context
      [⟨"chunk text", mkRat 9 10, "doc_chunk", "id1", "spec.pdf",
        some (.int 3), "Intro"⟩,
       ⟨"hello", mkRat 1 2, "message", "id2", "", none, ""⟩] =
      "\n\n=== Из загруженных документов ===\n1. chunk text  [spec.pdf, стр. 3, Intro]\n=================================\n\n=== Прошлые сообщения пользователя ===\n2. hello\n=======================================\n" := by
  refine ⟨rfl, ?_, ?_, ?_, by decide⟩
  · intro memories
    by_cases h : memories.isEmpty
    · simp [format_for_context, format_spec, h]
    · simp only [format_for_context, format_spec, h, if_false,
        Bool.false_eq_true, splitLines_eq]
  · intro i m hp
    simp [docLine, hp]
  · intro i m parts hp hne
    simp [docLine, hp, hne]

/-- Witness for C8: the grouping theorem applied to a one-`doc_chunk`,
one-message list, with the descriptor conjuncts instantiated at a record
with all parts present and at one with none. -/
theorem C8_witness :
    format_for_context
      [⟨"chunk text", mkRat 9 10, "doc_chunk", "id1", "spec.pdf",
        some (.int 3), "Intro"⟩,
       ⟨"hello", mkRat 1 2, "message", "id2", "", none, ""⟩] =
    format_spec
      [⟨"chunk text", mkRat 9 10, "doc_chunk", "id1", "spec.pdf",
        some (.int 3), "Intro"⟩,
       ⟨"hello", mkRat 1 2, "message", "id2", "", none, ""⟩] ∧
    docLine 1 ⟨"chunk text", mkRat 9 10, "doc_chunk", "id1", "spec.pdf",
        some (.int 3), "Intro"⟩ =
      "1. chunk text" ++ ("  [" ++ String.intercalate ", "
        ["spec.pdf", "стр. 3", "Intro"] ++ "]") ∧
    docLine 7 ⟨"bare", mkRat 1 2, "doc_chunk", "id3", "", none, ""⟩ =
      "7. bare" := by
  refine ⟨C8_format_grouping.2.1 _, ?_, ?_⟩
  · have := C8_format_grouping.2.2.2.1 1
      ⟨"chunk text", mkRat 9 10, "doc_chunk", "id1", "spec.pdf",
        some (.int 3), "Intro"⟩
      ["spec.pdf", "стр. 3", "Intro"] (by decide) (by decide)
    rw [this]; rfl
  · have := C8_format_grouping.2.2.1 7
      ⟨"bare", mkRat 1 2, "doc_chunk", "id3", "", none, ""⟩ (by decide)
    rw [this]; rfl

/-! ### C9: the classifier is read-only and never hides errors -/

/-- **C9.** Classification error propagation: a failed embedding or an
index query fault makes `check_similarity` return the error (wrapped with
the classifier's message); conversely a successful classification implies
the embedding succeeded and no query fault was present — an error is never
silently converted into a `new` classification.  (In this embedding
`check_similarity` takes the store purely as an input and returns no
store, so its read-only character is a typing fact.) -/
theorem C9_classifier_error_propagation
    (env : Env) (st : Store) (text ns : String) (k : Nat)
    (flt : Option Metadata) (thh thl : Option ℚ) :
    (∀ e, env.embed text = .error e →
      check_similarity env st text ns k flt thh thl =
        .error ("Ошибка при проверке сходства: " ++
          ("Ошибка при получении эмбеддинга: " ++ e))) ∧
    (∀ (v : List ℚ) e, env.embed text = .ok v → env.queryFault = some e →
      check_similarity env st text ns k flt thh thl =
        .error ("Ошибка при проверке сходства: " ++
          ("Ошибка при поиске по вектору: " ++ e))) ∧
    (∀ r, check_similarity env st text ns k flt thh thl = .ok r →
      env.queryFault = none ∧ ∃ v, env.embed text = .ok v) := by
  refine ⟨?_, ?_, ?_⟩
  · intro e he
    simp [check_similarity, get_embedding_err he]
  · intro v e he hq
    simp [check_similarity, get_embedding_ok he, query_by_vector, hq]
  · intro r h
    cases hemb : env.embed text with
    | error e => simp [check_similarity, get_embedding_err hemb] at h
    | ok v =>
      cases hq : env.queryFault with
      | some e =>
        simp [check_similarity, get_embedding_ok hemb, query_by_vector, hq] at h
      | none => exact ⟨rfl, v, rfl⟩

/-- An environment whose embedding provider always fails. -/
def envEmbErr : Env :=
  ⟨fun _ => .error "сбой эмбеддинга", fun _ _ => 0, none, none, none⟩

/-- An environment whose index query always fails. -/
def envQueryErr : Env :=
  ⟨fun _ => .ok [1], fun _ _ => 0, some "сбой индекса", none, none⟩

/-- Witness for C9: a concrete failing embedding and a concrete failing
index query each surface as classifier errors, and a concrete successful
classification implies both collaborators succeeded. -/
theorem C9_witness :
    check_similarity envEmbErr [] "x" "user_1" 5 none none none =
      .error ("Ошибка при проверке сходства: " ++
        ("Ошибка при получении эмбеддинга: " ++ "сбой эмбеддинга")) ∧
    check_similarity envQueryErr [] "x" "user_1" 5 none none none =
      .error ("Ошибка при проверке сходства: " ++
        ("Ошибка при поиске по вектору: " ++ "сбой индекса")) ∧
    (envScore 1).queryFault = none ∧ (∃ v, (envScore 1).embed "x" = .ok v) := by
  refine ⟨?_, ?_, ?_⟩
  · exact (C9_classifier_error_propagation envEmbErr [] "x" "user_1" 5
      none none none).1 "сбой эмбеддинга" rfl
  · exact (C9_classifier_error_propagation envQueryErr [] "x" "user_1" 5
      none none none).2.1 [1] "сбой индекса" rfl rfl
  · exact (C9_classifier_error_propagation (envScore 1) [] "x" "user_1" 5
      none none none).2.2 ("new", none) (by decide)

/-! ### C10: the manager-level save never raises and stamps metadata -/

/-- Dict lookup after setting the same key. -/
theorem Metadata.find?_set_self (m : Metadata) (k : String) (v : MVal) :
    (m.set k v).find? k = some v := by
  induction m with
  | nil => simp [Metadata.set, Metadata.find?]
  | cons kv rest ih =>
    obtain ⟨a, b⟩ := kv
    by_cases h : (a == k) = true
    · simp [Metadata.set, Metadata.find?, h]
    · simp [Metadata.set, Metadata.find?, h, ih]

/-- Dict lookup after setting a different key. -/
theorem Metadata.find?_set_ne (m : Metadata) (k k' : String) (v : MVal)
    (h : k ≠ k') : (m.set k v).find? k' = m.find? k' := by
  induction m with
  | nil => simp [Metadata.set, Metadata.find?, h]
  | cons kv rest ih =>
    obtain ⟨a, b⟩ := kv
    by_cases hak : a = k
    · subst hak
      simp [Metadata.set, Metadata.find?, h]
    · simp only [Metadata.set, beq_iff_eq, hak, if_false]
      by_cases hak' : a = k'
      · simp [Metadata.find?, hak']
      · simp [Metadata.find?, hak', ih]

/-- **C10.** `MemoryManager.save` never propagates an exception: its result
is always either the smart-upsert result dict or the error dict; when the
smart upsert raises, `save` returns the error dict carrying the message
and leaves the store untouched; when it succeeds, `save` passes the result
through; and the metadata it hands to the smart upsert is always stamped
with `user_id`, `type`, `timestamp` and `datetime`. -/
theorem C10_save_error_dict_and_stamps
    (env : Env) (st : Store) (u : Int) (text mtype : String)
    (metadata : Option Metadata) (cd : Bool) (doc_id : Option String)
    (ts : Int) (dt : String) :
    ((∃ st' r, save env st u text mtype metadata cd doc_id ts dt
        = (st', .res r)) ∨
     (∃ e, save env st u text mtype metadata cd doc_id ts dt
        = (st, .err e))) ∧
    (∀ e, smart_upsert_text env st text
        (match doc_id with
         | some d => if d.isEmpty then
             toString u ++ "_" ++ mtype ++ "_" ++ toString ts
           else d
         | none => toString u ++ "_" ++ mtype ++ "_" ++ toString ts)
        (some (stampMeta metadata u mtype ts dt)) (get_namespace u)
        cd true none none none = .error e →
      save env st u text mtype metadata cd doc_id ts dt = (st, .err e)) ∧
    (∀ st' r, smart_upsert_text env st text
        (match doc_id with
         | some d => if d.isEmpty then
             toString u ++ "_" ++ mtype ++ "_" ++ toString ts
           else d
         | none => toString u ++ "_" ++ mtype ++ "_" ++ toString ts)
        (some (stampMeta metadata u mtype ts dt)) (get_namespace u)
        cd true none none none = .ok (st', r) →
      save env st u text mtype metadata cd doc_id ts dt = (st', .res r)) ∧
    ((stampMeta metadata u mtype ts dt).find? "user_id" = some (.int u) ∧
     (stampMeta metadata u mtype ts dt).find? "type" = some (.str mtype) ∧
     (stampMeta metadata u mtype ts dt).find? "timestamp" = some (.int ts) ∧
     (stampMeta metadata u mtype ts dt).find? "datetime" = some (.str dt)) := by
  refine ⟨?_, ?_, ?_, ?_, ?_, ?_, ?_⟩
  · cases hs : smart_upsert_text env st text
        (match doc_id with
         | some d => if d.isEmpty then
             toString u ++ "_" ++ mtype ++ "_" ++ toString ts
           else d
         | none => toString u ++ "_" ++ mtype ++ "_" ++ toString ts)
        (some (stampMeta metadata u mtype ts dt)) (get_namespace u)
        cd true none none none with
    | ok p => exact Or.inl ⟨p.1, p.2, by simp [save, hs]⟩
    | error e => exact Or.inr ⟨e, by simp [save, hs]⟩
  · intro e hs
    simp [save, hs]
  · intro st' r hs
    simp [save, hs]
  · unfold stampMeta
    rw [Metadata.find?_set_ne _ _ _ _ (by decide),
      Metadata.find?_set_ne _ _ _ _ (by decide),
      Metadata.find?_set_ne _ _ _ _ (by decide),
      Metadata.find?_set_self]
  · unfold stampMeta
    rw [Metadata.find?_set_ne _ _ _ _ (by decide),
      Metadata.find?_set_ne _ _ _ _ (by decide),
      Metadata.find?_set_self]
  · unfold stampMeta
    rw [Metadata.find?_set_ne _ _ _ _ (by decide),
      Metadata.find?_set_self]
  · unfold stampMeta
    rw [Metadata.find?_set_self]

/-- Witness for C10: with the always-failing embedding provider, a save
call returns the error dict with the full wrapped cause and leaves the
store unchanged; the stamped metadata of the same call carries all four
stamps. -/
theorem C10_witness :
    save envEmbErr [] 1 "привет" "message" none true none 42 "2026-01-01" =
      ([], .err ("Ошибка при умной записи текста: " ++
        ("Ошибка при проверке сходства: " ++
          ("Ошибка при получении эмбеддинга: " ++ "сбой эмбеддинга")))) ∧
    (stampMeta none 1 "message" 42 "2026-01-01").find? "user_id"
      = some (.int 1) ∧
    (stampMeta none 1 "message" 42 "2026-01-01").find? "datetime"
      = some (.str "2026-01-01") := by
  have h := C10_save_error_dict_and_stamps envEmbErr [] 1 "привет" "message"
    none true none 42 "2026-01-01"
  refine ⟨?_, h.2.2.2.1, h.2.2.2.2.2.2⟩
  exact h.2.1 _ (by decide)

/-! ### C6: idempotent document passports -/

/-- Reading back a namespace just written. -/
theorem recordsIn_setNs_self (st : Store) (ns : String)
    (recs : List MemRecord) : recordsIn (setNs st ns recs) ns = recs := by
  induction st with
  | nil => simp [setNs, recordsIn]
  | cons p rest ih =>
    obtain ⟨n, rs⟩ := p
    by_cases h : n = ns
    · simp [setNs, recordsIn, h]
    · simp [setNs, recordsIn, h, ih]

/-- After an upsert the upserted id occurs exactly once, provided it
occurred at most once before (the index id-uniqueness invariant). -/
theorem countP_upsertInNs (recs : List MemRecord) (r : MemRecord)
    (h : recs.countP (fun x => x.id == r.id) ≤ 1) :
    (upsertInNs recs r).countP (fun x => x.id == r.id) = 1 := by
  unfold upsertInNs
  by_cases ha : recs.any (fun x => x.id == r.id) = true
  · simp only [ha, if_true]
    rw [List.countP_map]
    have hfun : ((fun x : MemRecord => x.id == r.id) ∘
        (fun x => if x.id == r.id then r else x))
        = fun x => x.id == r.id := by
      funext x
      by_cases hx : (x.id == r.id) = true
      · simp [Function.comp, hx]
      · simp [Function.comp, hx]
    rw [hfun]
    have hpos : 0 < recs.countP (fun x => x.id == r.id) := by
      rw [List.countP_pos_iff]
      exact List.any_eq_true.mp ha
    omega
  · simp only [Bool.not_eq_true] at ha
    simp only [ha, Bool.false_eq_true, if_false]
    rw [List.countP_append]
    have h0 : recs.countP (fun x => x.id == r.id) = 0 := by
      rw [List.countP_eq_zero]
      intro a hal hcontra
      have : recs.any (fun x => x.id == r.id) = true :=
        List.any_eq_true.mpr ⟨a, hal, hcontra⟩
      rw [ha] at this
      exact Bool.false_ne_true this
    simp [h0]

/-- Upserting an id already present does not change the record count. -/
theorem length_upsertInNs (recs : List MemRecord) (r : MemRecord)
    (h : recs.any (fun x => x.id == r.id) = true) :
    (upsertInNs recs r).length = recs.length := by
  simp [upsertInNs, h]

/-- The deterministic passport id is never the empty string (it contains
the infix `_doc_index_`). -/
theorem docIndexId_isEmpty_false (u : Int) (fn : String) :
    (docIndexId u fn).isEmpty = false := by
  by_cases h : (docIndexId u fn).isEmpty = true
  · exfalso
    rw [String.isEmpty_iff] at h
    have hd : (docIndexId u fn).data = [] := by rw [h]
    rw [show docIndexId u fn
        = toString u ++ "_doc_index_" ++ md5_hexdigest fn from rfl,
      String.data_append, String.data_append] at hd
    rcases List.append_eq_nil.mp hd with ⟨hd1, hd2⟩
    rcases List.append_eq_nil.mp hd1 with ⟨hd3, hd4⟩
    exact absurd hd4 (by decide)
  · simpa using h

/-- Under a successful embedding and no upsert fault, `save_doc_index`
reduces to one upsert of a record keyed by the deterministic passport id
into the user's namespace. -/
theorem save_doc_index_eq (env : Env) (st : Store) (u : Int) (fn : String)
    (cc : Int) (ts : Int) (dt : String) (v : List ℚ)
    (hv : env.embed ("Загружен документ: " ++ fn) = .ok v)
    (hf : env.upsertFault = none) :
    save_doc_index env st u fn cc ts dt =
      upsertRecord st (get_namespace u)
        ⟨docIndexId u fn, v,
         ((stampMeta (some [("filename", .str fn), ("chunk_count", .int cc)])
            u "doc_index" ts dt)).set "text"
              (.str ("Загружен документ: " ++ fn))⟩ := by
  simp only [save_doc_index, save, docIndexId_isEmpty_false u fn,
    Bool.false_eq_true, if_false, smart_upsert_text,
    upsert_text_ok st (docIndexId u fn)
      (some (stampMeta (some [("filename", .str fn), ("chunk_count", .int cc)])
        u "doc_index" ts dt)) (get_namespace u) hv hf]
  rfl

/-- **C6.** `save_doc_index` is idempotent per (user, filename): assuming
the index invariant (at most one record with the passport id), after one
call exactly one record with the deterministic passport id exists, after a
second call with the same user and filename exactly one still exists, and
the second call does not grow the namespace — it overwrites. -/
theorem C6_save_doc_index_idempotent
    (env : Env) (st : Store) (u : Int) (fn : String) (cc cc2 : Int)
    (ts1 ts2 : Int) (dt1 dt2 : String) (v : List ℚ)
    (hv : env.embed ("Загружен документ: " ++ fn) = .ok v)
    (hf : env.upsertFault = none)
    (hinv : (recordsIn st (get_namespace u)).countP
      (fun r => r.id == docIndexId u fn) ≤ 1) :
    ((recordsIn (save_doc_index env st u fn cc ts1 dt1) (get_namespace u)).countP
      (fun r => r.id == docIndexId u fn) = 1) ∧
    ((recordsIn (save_doc_index env (save_doc_index env st u fn cc ts1 dt1)
        u fn cc2 ts2 dt2) (get_namespace u)).countP
      (fun r => r.id == docIndexId u fn) = 1) ∧
    ((recordsIn (save_doc_index env (save_doc_index env st u fn cc ts1 dt1)
        u fn cc2 ts2 dt2) (get_namespace u)).length =
     (recordsIn (save_doc_index env st u fn cc ts1 dt1) (get_namespace u)).length) := by
  rw [save_doc_index_eq env st u fn cc ts1 dt1 v hv hf]
  set r1 : MemRecord :=
    ⟨docIndexId u fn, v,
     ((stampMeta (some [("filename", .str fn), ("chunk_count", .int cc)])
        u "doc_index" ts1 dt1)).set "text"
          (.str ("Загружен документ: " ++ fn))⟩ with hr1
  have hrec1 : recordsIn (upsertRecord st (get_namespace u) r1)
      (get_namespace u) = upsertInNs (recordsIn st (get_namespace u)) r1 := by
    unfold upsertRecord
    exact recordsIn_setNs_self _ _ _
  have hc1 : (recordsIn (upsertRecord st (get_namespace u) r1)
      (get_namespace u)).countP (fun r => r.id == docIndexId u fn) = 1 := by
    rw [hrec1]
    exact countP_upsertInNs _ r1 hinv
  refine ⟨hc1, ?_, ?_⟩
  · rw [save_doc_index_eq env _ u fn cc2 ts2 dt2 v hv hf]
    set r2 : MemRecord :=
      ⟨docIndexId u fn, v,
       ((stampMeta (some [("filename", .str fn), ("chunk_count", .int cc2)])
          u "doc_index" ts2 dt2)).set "text"
            (.str ("Загружен документ: " ++ fn))⟩ with hr2
    have hrec2 : recordsIn (upsertRecord (upsertRecord st (get_namespace u) r1)
        (get_namespace u) r2) (get_namespace u) =
        upsertInNs (recordsIn (upsertRecord st (get_namespace u) r1)
          (get_namespace u)) r2 := by
      unfold upsertRecord
      exact recordsIn_setNs_self _ _ _
    rw [hrec2]
    exact countP_upsertInNs _ r2 (by rw [hc1])
  · rw [save_doc_index_eq env _ u fn cc2 ts2 dt2 v hv hf]
    set r2 : MemRecord :=
      ⟨docIndexId u fn, v,
       ((stampMeta (some [("filename", .str fn), ("chunk_count", .int cc2)])
          u "doc_index" ts2 dt2)).set "text"
            (.str ("Загружен документ: " ++ fn))⟩ with hr2
    have hrec2 : recordsIn (upsertRecord (upsertRecord st (get_namespace u) r1)
        (get_namespace u) r2) (get_namespace u) =
        upsertInNs (recordsIn (upsertRecord st (get_namespace u) r1)
          (get_namespace u)) r2 := by
      unfold upsertRecord
      exact recordsIn_setNs_self _ _ _
    rw [hrec2]
    apply length_upsertInNs
    rw [List.any_eq_true]
    have hpos : 0 < (recordsIn (upsertRecord st (get_namespace u) r1)
        (get_namespace u)).countP (fun r => r.id == docIndexId u fn) := by
      rw [hc1]; exact Nat.one_pos
    exact List.countP_pos_iff.mp hpos

/-- Witness for C6: saving the passport of `"a.pdf"` for user 1 twice on
an empty index leaves exactly one record with the passport id, and the
second call does not add a record. -/
theorem C6_witness :
    ((recordsIn (save_doc_index (envScore 1) [] 1 "a.pdf" 3 10 "d1")
        (get_namespace 1)).countP
      (fun r => r.id == docIndexId 1 "a.pdf") = 1) ∧
    ((recordsIn (save_doc_index (envScore 1)
        (save_doc_index (envScore 1) [] 1 "a.pdf" 3 10 "d1")
        1 "a.pdf" 4 20 "d2") (get_namespace 1)).countP
      (fun r => r.id == docIndexId 1 "a.pdf") = 1) ∧
    ((recordsIn (save_doc_index (envScore 1)
        (save_doc_index (envScore 1) [] 1 "a.pdf" 3 10 "d1")
        1 "a.pdf" 4 20 "d2") (get_namespace 1)).length =
     (recordsIn (save_doc_index (envScore 1) [] 1 "a.pdf" 3 10 "d1")
        (get_namespace 1)).length) :=
  C6_save_doc_index_idempotent (envScore 1) [] 1 "a.pdf" 3 4 10 20 "d1" "d2"
    [1] rfl rfl (by decide)

/-! ### C7: namespace isolation (noninterference) -/

/-- Writing one namespace leaves every other namespace untouched. -/
theorem recordsIn_setNs_ne (st : Store) (ns1 ns2 : String)
    (recs : List MemRecord) (h : ns1 ≠ ns2) :
    recordsIn (setNs st ns1 recs) ns2 = recordsIn st ns2 := by
  induction st with
  | nil => simp [setNs, recordsIn, h]
  | cons p rest ih =>
    obtain ⟨n, rs⟩ := p
    by_cases hn : n = ns1
    · subst hn
      simp [setNs, recordsIn, h]
    · have hstep : setNs ((n, rs) :: rest) ns1 recs
          = (n, rs) :: setNs rest ns1 recs := by simp [setNs, hn]
      rw [hstep]
      by_cases hn2 : n = ns2
      · simp [recordsIn, hn2]
      · simp [recordsIn, hn2, ih]

/-- An upsert into one namespace leaves other namespaces untouched. -/
theorem recordsIn_upsertRecord_ne (st : Store) (ns1 ns2 : String)
    (r : MemRecord) (h : ns1 ≠ ns2) :
    recordsIn (upsertRecord st ns1 r) ns2 = recordsIn st ns2 :=
  recordsIn_setNs_ne st ns1 ns2 _ h

/-- A successful `upsert_text` into one namespace leaves other namespaces
untouched. -/
theorem upsert_text_frame {env : Env} {st st' : Store} {text did : String}
    {meta : Option Metadata} {ns1 : String}
    (h : upsert_text env st text did meta ns1 = .ok st')
    (ns2 : String) (hne : ns1 ≠ ns2) :
    recordsIn st' ns2 = recordsIn st ns2 := by
  unfold upsert_text at h
  split at h
  · exact absurd h (by simp)
  · split at h
    · exact absurd h (by simp)
    · simp only [Except.ok.injEq] at h
      subst h
      exact recordsIn_upsertRecord_ne st ns1 ns2 _ hne

/-- A successful `update_metadata` in one namespace leaves other
namespaces untouched. -/
theorem update_metadata_frame {env : Env} {st st' : Store} {did : String}
    {m : Metadata} {ns1 : String}
    (h : update_metadata env st did m ns1 = .ok st')
    (ns2 : String) (hne : ns1 ≠ ns2) :
    recordsIn st' ns2 = recordsIn st ns2 := by
  unfold update_metadata at h
  split at h
  · exact absurd h (by simp)
  · simp only [Except.ok.injEq] at h
    subst h
    exact recordsIn_setNs_ne st ns1 ns2 _ hne

/-- A successful `smart_upsert_text` scoped to one namespace leaves every
other namespace untouched, whichever branch it took. -/
theorem smart_upsert_text_frame {env : Env} {st st' : Store}
    {text did : String} {meta : Option Metadata} {ns1 : String}
    {cd upd : Bool} {thh thl : Option ℚ} {flt : Option Metadata}
    {r : UpsertResult}
    (h : smart_upsert_text env st text did meta ns1 cd upd thh thl flt
      = .ok (st', r))
    (ns2 : String) (hne : ns1 ≠ ns2) :
    recordsIn st' ns2 = recordsIn st ns2 := by
  unfold smart_upsert_text at h
  split at h
  · -- duplicate check on
    split at h
    · exact absurd h (by simp)
    · rename_i status mtch heq
      split at h
      · split at h
        · split at h
          · rename_i m
            split at h
            · exact absurd h (by simp)
            · rename_i stU hequ
              simp only [Except.ok.injEq, Prod.mk.injEq] at h
              rw [← h.1]
              exact update_metadata_frame hequ ns2 hne
          · simp only [Except.ok.injEq, Prod.mk.injEq] at h
            rw [← h.1]
        · simp only [Except.ok.injEq, Prod.mk.injEq] at h
          rw [← h.1]
      · split at h
        · exact absurd h (by simp)
        · rename_i stU hequ
          simp only [Except.ok.injEq, Prod.mk.injEq] at h
          rw [← h.1]
          exact upsert_text_frame hequ ns2 hne
  · -- duplicate check off
    split at h
    · exact absurd h (by simp)
    · rename_i stU hequ
      simp only [Except.ok.injEq, Prod.mk.injEq] at h
      rw [← h.1]
      exact upsert_text_frame hequ ns2 hne

/-- The store `MemoryManager.save` leaves behind agrees with the original
store on every namespace other than the saving user's. -/
theorem save_frame (env : Env) (st : Store) (u1 : Int)
    (text mtype : String) (metadata : Option Metadata) (cd : Bool)
    (doc_id : Option String) (ts : Int) (dt : String) (ns2 : String)
    (hne : get_namespace u1 ≠ ns2) :
    recordsIn ((save env st u1 text mtype metadata cd doc_id ts dt).1) ns2
      = recordsIn st ns2 := by
  unfold save
  dsimp only
  split
  · rename_i st' r heq
    exact smart_upsert_text_frame heq ns2 hne
  · rfl

/-- Index queries depend on the store only through the queried
namespace. -/
theorem indexMatches_congr {st1 st2 : Store} {ns : String}
    (h : recordsIn st1 ns = recordsIn st2 ns) (env : Env) (v : List ℚ)
    (k : Nat) (flt : Option Metadata) :
    indexMatches env st1 v k ns flt = indexMatches env st2 v k ns flt := by
  unfold indexMatches
  rw [h]

/-- `query_by_vector` depends on the store only through the queried
namespace. -/
theorem query_by_vector_congr {st1 st2 : Store} {ns : String}
    (h : recordsIn st1 ns = recordsIn st2 ns) (env : Env) (v : List ℚ)
    (k : Nat) (flt : Option Metadata) :
    query_by_vector env st1 v k ns flt = query_by_vector env st2 v k ns flt := by
  unfold query_by_vector
  cases env.queryFault with
  | some e => rfl
  | none => rw [indexMatches_congr h env v k flt]

/-- `query_by_text` depends on the store only through the queried
namespace. -/
theorem query_by_text_congr {st1 st2 : Store} {ns : String}
    (h : recordsIn st1 ns = recordsIn st2 ns) (env : Env) (text : String)
    (k : Nat) (flt : Option Metadata) :
    query_by_text env st1 text k ns flt = query_by_text env st2 text k ns flt := by
  unfold query_by_text
  cases get_embedding env text with
  | error e => rfl
  | ok v =>
    dsimp only
    rw [query_by_vector_congr h env v k flt]

/-- `check_similarity` depends on the store only through the queried
namespace. -/
theorem check_similarity_congr {st1 st2 : Store} {ns : String}
    (h : recordsIn st1 ns = recordsIn st2 ns) (env : Env) (text : String)
    (k : Nat) (flt : Option Metadata) (thh thl : Option ℚ) :
    check_similarity env st1 text ns k flt thh thl
      = check_similarity env st2 text ns k flt thh thl := by
  unfold check_similarity
  cases get_embedding env text with
  | error e => rfl
  | ok v =>
    dsimp only
    rw [query_by_vector_congr h env v k flt]

/-- `retrieve` depends on the store only through the user's namespace. -/
theorem retrieve_congr {st1 st2 : Store} {u : Int}
    (h : recordsIn st1 (get_namespace u) = recordsIn st2 (get_namespace u))
    (env : Env) (q : String) (k : Nat) :
    retrieve env st1 u q k = retrieve env st2 u q k := by
  unfold retrieve _retrieve_all
  by_cases ht : hasTrigger q
  · simp only [ht, if_true]
    rw [query_by_text_congr h env broadQueryText 50 none]
  · simp only [ht, Bool.false_eq_true, if_false]
    rw [query_by_text_congr h env q k none]

/-- **C7.** Namespace isolation as noninterference: a save by user `u1`
whose namespace differs from user `u2`'s namespace changes nothing that
`u2`'s operations can observe — `u2`'s namespace contents, every
`retrieve` by `u2` (identical query text included), and every
classification against `u2`'s namespace are exactly as they were before
the save. -/
theorem C7_namespace_isolation (env : Env) (st : Store) (u1 u2 : Int)
    (text mtype : String) (metadata : Option Metadata) (cd : Bool)
    (doc_id : Option String) (ts : Int) (dt : String)
    (q : String) (k top_k : Nat) (flt : Option Metadata)
    (thh thl : Option ℚ)
    (hne : get_namespace u1 ≠ get_namespace u2) :
    recordsIn ((save env st u1 text mtype metadata cd doc_id ts dt).1)
        (get_namespace u2) = recordsIn st (get_namespace u2) ∧
    retrieve env ((save env st u1 text mtype metadata cd doc_id ts dt).1)
        u2 q top_k = retrieve env st u2 q top_k ∧
    check_similarity env
        ((save env st u1 text mtype metadata cd doc_id ts dt).1)
        q (get_namespace u2) k flt thh thl
      = check_similarity env st q (get_namespace u2) k flt thh thl := by
  have hframe := save_frame env st u1 text mtype metadata cd doc_id ts dt
    (get_namespace u2) hne
  exact ⟨hframe, retrieve_congr hframe env q top_k,
    check_similarity_congr hframe env q k flt thh thl⟩

/-- Witness for C7: after user 1 saves the text `"секрет"`, user 2's
retrieval with the identical query text still returns nothing, exactly as
on the original empty store. -/
theorem C7_witness :
    retrieve (envScore 1)
      ((save (envScore 1) [] 1 "секрет" "message" none true none 5 "d").1)
      2 "секрет" 10 = .ok [] ∧
    check_similarity (envScore 1)
      ((save (envScore 1) [] 1 "секрет" "message" none true none 5 "d").1)
      "секрет" (get_namespace 2) 5 none none none = .ok ("new", none) := by
  have h := C7_namespace_isolation (envScore 1) [] 1 2 "секрет" "message"
    none true none 5 "d" "секрет" 5 10 none none none (by decide)
  constructor
  · rw [h.2.1]
    decide
  · rw [h.2.2]
    decide

/-! ### C5: batch save error behaviour -/

/-- An environment whose embedding provider fails exactly on the text
`"t2"` (the second batch item below) and succeeds on everything else. -/
def envC5 : Env :=
  ⟨fun t => if t == "t2" then .error "сбой эмбеддинга" else .ok [1],
   fun _ _ => 0, none, none, none⟩

/-- A three-document batch whose middle item hits the embedding fault. -/
def docsC5 : List Doc := [⟨"d1", "t1", []⟩, ⟨"d2", "t2", []⟩, ⟨"d3", "t3", []⟩]

/-- Counterexample to C5 as stated: with `check_duplicates = true`, an
embedding error on the second of three documents does **not** get recorded
in that item's result entry — the whole call returns the propagated error
(no stats dict at all), and the third document is never processed: the
final store holds only the first document. -/
theorem C5_counterexample :
    (smart_upsert_documents envC5 [] docsC5 "user_9" true true none none).2
      = .error ("Ошибка при умной записи документов: " ++
          ("Ошибка при умной записи текста: " ++
            ("Ошибка при проверке сходства: " ++
              ("Ошибка при получении эмбеддинга: " ++ "сбой эмбеддинга")))) ∧
    (recordsIn (smart_upsert_documents envC5 [] docsC5 "user_9"
        true true none none).1 "user_9").map (fun r => r.id) = ["d1"] := by
  constructor
  · decide
  · decide

/-- **C5 (amended).** In a batch save with `check_duplicates = true`, an
embedding or index error while processing one item aborts the whole batch
call: `susdGo` (and hence `smart_upsert_documents`) returns the wrapped
error with the store as the already-processed items left it, no per-item
error entry is recorded, and the remaining items are not processed. -/
theorem C5_batch_abort_on_item_error
    (env : Env) (st : Store) (d : Doc) (rest : List Doc) (ns : String)
    (upd : Bool) (thh thl : Option ℚ) (acc : BatchStats) (e : String)
    (h : smart_upsert_text env st d.text d.id (some (docMeta d)) ns
      true upd thh thl none = .error e) :
    susdGo env st (d :: rest) ns upd thh thl acc
      = (st, .error ("Ошибка при умной записи документов: " ++ e)) ∧
    smart_upsert_documents env st (d :: rest) ns true upd thh thl
      = (st, .error ("Ошибка при умной записи документов: " ++ e)) := by
  constructor
  · simp [susdGo, h]
  · simp [smart_upsert_documents, susdGo, h]

/-- Witness for the amended C5: resuming the loop after the first item of
`docsC5` was written, the failing second item aborts with the wrapped
error, the first item's write persists, and the third item is left
unprocessed. -/
theorem C5_witness :
    susdGo envC5 [("user_9", [⟨"d1", [1], [("text", .str "t1")]⟩])]
      [⟨"d2", "t2", ([] : Metadata)⟩, ⟨"d3", "t3", ([] : Metadata)⟩]
      "user_9" true none none
      ⟨3, 1, 0, 0, [⟨some "created", "d1", some "new", none, none⟩]⟩
      = ([("user_9", [⟨"d1", [1], [("text", .str "t1")]⟩])],
         .error ("Ошибка при умной записи документов: " ++
           ("Ошибка при умной записи текста: " ++
             ("Ошибка при проверке сходства: " ++
               ("Ошибка при получении эмбеддинга: " ++ "сбой эмбеддинга"))))) :=
  (C5_batch_abort_on_item_error envC5
    [("user_9", [⟨"d1", [1], [("text", .str "t1")]⟩])]
    ⟨"d2", "t2", []⟩ [⟨"d3", "t3", []⟩] "user_9" true none none
    ⟨3, 1, 0, 0, [⟨some "created", "d1", some "new", none, none⟩]⟩
    ("Ошибка при умной записи текста: " ++
      ("Ошибка при проверке сходства: " ++
        ("Ошибка при получении эмбеддинга: " ++ "сбой эмбеддинга")))
    (by decide)).1

end PineBot
